import Mathlib

/-!
Verification of the Data-Alchemist validation and rule core.

The TypeScript sources are shallowly embedded: each definition below mirrors
one function of the repository (file and symbol named in its doc comment).
JavaScript strings are modelled as Lean `String` (`List Char` underneath),
JavaScript numbers that the code produces from cell grids as exact values
(`Int` for integer-valued numbers, `ℚ` for decimal parsing), and JavaScript
`any`-typed cell values by the inductive `Cell`.
-/

set_option maxHeartbeats 1000000

namespace DataAlchemist

/-- A JavaScript value as it occurs in a data grid cell: a string, an
integer-valued number, a boolean, `null`, or `undefined`. -/
inductive Cell where
  | str (s : String)
  | num (n : Int)
  | bool (b : Bool)
  | null
  | undefined
deriving DecidableEq, Repr

/-- JavaScript truthiness of a cell value (`!cell` in the source negates
this): `""`, `0`, `false`, `null`, `undefined` are falsy. -/
def cellTruthy : Cell → Bool
  | .str s => !(s == "")
  | .num n => !(n == 0)
  | .bool b => b
  | .null => false
  | .undefined => false

/-- JavaScript `toString()` / `String(...)` on a cell value. Only invoked by
the source on non-nullish values; extended totally with the `String(...)`
results for `null`/`undefined`. -/
def cellToString : Cell → String
  | .str s => s
  | .num n => toString n
  | .bool b => if b then "true" else "false"
  | .null => "null"
  | .undefined => "undefined"

/-- JavaScript `String.prototype.toLowerCase` on an ASCII character. -/
def jsToLowerChar (c : Char) : Char :=
  if 'A' ≤ c ∧ c ≤ 'Z' then Char.ofNat (c.toNat + 32) else c

/-- JavaScript `String.prototype.toLowerCase`. -/
def toLowerStr (s : String) : String :=
  ⟨s.data.map jsToLowerChar⟩

/-- JavaScript `String.prototype.trim`: strip leading and trailing
whitespace. -/
def jsTrim (s : String) : String :=
  ⟨((s.data.dropWhile (·.isWhitespace)).reverse.dropWhile (·.isWhitespace)).reverse⟩

/-- Helper for `containsStr`: is `needle` a contiguous sublist of the
second argument (JavaScript `String.prototype.includes`)? -/
def containsList (needle : List Char) : List Char → Bool
  | [] => needle.isEmpty
  | c :: t => needle.isPrefixOf (c :: t) || containsList needle t

/-- JavaScript `hay.includes(sub)`. -/
def containsStr (hay sub : String) : Bool :=
  containsList sub.data hay.data

/-- JavaScript `s.startsWith(c)` for a one-character prefix. -/
def startsWithChar (s : String) (c : Char) : Bool :=
  match s.data with
  | [] => false
  | x :: _ => x == c

/-- JavaScript `s.includes(c)` for a single character. -/
def strContainsChar (s : String) (c : Char) : Bool :=
  s.data.any (· == c)

/-- JavaScript `Array.prototype.join` on strings. -/
def jsJoin (sep : String) : List String → String
  | [] => ""
  | [x] => x
  | x :: xs => x ++ sep ++ jsJoin sep xs

/-- Numeric value of a decimal digit character. -/
def digitVal (c : Char) : Nat := c.toNat - '0'.toNat

/-- Value of a list of decimal digit characters. -/
def digitsToNat (l : List Char) : Nat :=
  l.foldl (fun acc c => acc * 10 + digitVal c) 0

/-- Is `c` a hexadecimal digit character? -/
def isHexDigitChar (c : Char) : Bool :=
  c.isDigit || ('a' ≤ c && c ≤ 'f') || ('A' ≤ c && c ≤ 'F')

/-- Numeric value of a hexadecimal digit character. -/
def hexDigitVal (c : Char) : Nat :=
  if c.isDigit then c.toNat - '0'.toNat
  else if 'a' ≤ c ∧ c ≤ 'f' then c.toNat - 'a'.toNat + 10
  else c.toNat - 'A'.toNat + 10

/-- Value of a list of hexadecimal digit characters. -/
def hexToNat (l : List Char) : Nat :=
  l.foldl (fun acc c => acc * 16 + hexDigitVal c) 0

/-- JavaScript `parseInt(s)` (no radix argument): skip leading whitespace,
optional sign, then either a `0x`/`0X` hexadecimal literal or the longest
leading run of decimal digits; `none` models `NaN`. Values are exact
(`Int`), idealising the IEEE-754 double for very long digit strings. -/
def parseIntJS (s : String) : Option Int :=
  let cs := s.data.dropWhile (·.isWhitespace)
  let signed : Int × List Char :=
    match cs with
    | '-' :: t => (-1, t)
    | '+' :: t => (1, t)
    | _ => (1, cs)
  match signed.2 with
  | '0' :: x :: t =>
    if x == 'x' || x == 'X' then
      let ds := t.takeWhile isHexDigitChar
      if ds.isEmpty then none else some (signed.1 * (hexToNat ds : Int))
    else
      let ds := ('0' :: x :: t).takeWhile (·.isDigit)
      some (signed.1 * (digitsToNat ds : Int))
  | _ =>
    let ds := signed.2.takeWhile (·.isDigit)
    if ds.isEmpty then none else some (signed.1 * (digitsToNat ds : Int))

/-- A JavaScript number that `parseFloat` can produce: the exact value
`m * 10 ^ e` (idealising the IEEE-754 double) or a signed infinity; `NaN`
is modelled as `none` at the use sites. The representation is not
canonical; all uses compare values through `jsfNonPos`/`jsfNeg`/`jsfLt`. -/
inductive JSFloat where
  | inf (pos : Bool)
  | val (m : Int) (e : Int)
deriving DecidableEq, Repr

/-- `d <= 0` on a parsed JavaScript number (the sign of `m * 10 ^ e` is the
sign of `m`). -/
def jsfNonPos : JSFloat → Bool
  | .inf pos => !pos
  | .val m _ => decide (m ≤ 0)

/-- `d < 0` on a parsed JavaScript number. -/
def jsfNeg : JSFloat → Bool
  | .inf pos => !pos
  | .val m _ => decide (m < 0)

/-- `a < b` on parsed JavaScript numbers: cross-scale the mantissas to a
common power of ten and compare as integers. -/
def jsfLt : JSFloat → JSFloat → Bool
  | .inf p1, .inf p2 => !p1 && p2
  | .inf p1, .val _ _ => !p1
  | .val _ _, .inf p2 => p2
  | .val m1 e1, .val m2 e2 =>
    if e2 ≤ e1 then decide (m1 * (10 : Int) ^ (e1 - e2).toNat < m2)
    else decide (m1 < m2 * (10 : Int) ^ (e2 - e1).toNat)

/-- JavaScript `parseFloat(s)`: skip leading whitespace, optional sign, then
the longest prefix shaped `Infinity`, or digits, optional `.digits`,
optional well-formed exponent; trailing garbage is ignored; `none` models
`NaN`. Finite values are exact rationals (idealising the IEEE-754
double). -/
def parseFloatJS (s : String) : Option JSFloat :=
  let cs := s.data.dropWhile (·.isWhitespace)
  let signed : Bool × List Char :=
    match cs with
    | '-' :: t => (false, t)
    | '+' :: t => (true, t)
    | _ => (true, cs)
  if "Infinity".data.isPrefixOf signed.2 then some (.inf signed.1)
  else
    let ip := signed.2.takeWhile (·.isDigit)
    let rest := signed.2.drop ip.length
    let fracRest : List Char × List Char :=
      match rest with
      | '.' :: t => (t.takeWhile (·.isDigit), t.drop (t.takeWhile (·.isDigit)).length)
      | _ => ([], rest)
    let fp := fracRest.1
    if ip.isEmpty && fp.isEmpty then none
    else
      let mantissa : Int := (digitsToNat (ip ++ fp) : Int)
      let expVal : Int :=
        match fracRest.2 with
        | e :: t =>
          if e == 'e' || e == 'E' then
            let esigned : Int × List Char :=
              match t with
              | '-' :: u => (-1, u)
              | '+' :: u => (1, u)
              | _ => (1, t)
            let eds := esigned.2.takeWhile (·.isDigit)
            if eds.isEmpty then 0 else esigned.1 * (digitsToNat eds : Int)
          else 0
        | [] => 0
      some (.val (if signed.1 then mantissa else -mantissa) (expVal - (fp.length : Int)))

/-- JSON insignificant whitespace (RFC 8259). -/
def jsonSkipWs (cs : List Char) : List Char :=
  cs.dropWhile (fun c => c == ' ' || c == '\t' || c == '\n' || c == '\r')

/-- Consume the remainder of a JSON string literal (after the opening
quote), returning the input after the closing quote. -/
def jsonStringRest : List Char → Option (List Char)
  | [] => none
  | '"' :: rest => some rest
  | '\\' :: e :: rest =>
    if e == '"' || e == '\\' || e == '/' || e == 'b' || e == 'f' ||
       e == 'n' || e == 'r' || e == 't' then jsonStringRest rest
    else if e == 'u' then
      match rest with
      | a :: b :: c :: d :: rest2 =>
        if isHexDigitChar a && isHexDigitChar b && isHexDigitChar c && isHexDigitChar d then
          jsonStringRest rest2
        else none
      | _ => none
    else none
  | c :: rest => if c.toNat < 32 then none else jsonStringRest rest

/-- Consume the optional fraction part of a JSON number literal. -/
def jsonFrac : List Char → Option (List Char)
  | '.' :: r =>
    match r with
    | c :: _ => if c.isDigit then some (r.dropWhile (·.isDigit)) else none
    | [] => none
  | cs => some cs

/-- Consume the optional exponent part of a JSON number literal. -/
def jsonExp : List Char → Option (List Char)
  | [] => some []
  | c :: r =>
    if c == 'e' || c == 'E' then
      let r2 : List Char :=
        match r with
        | s :: t => if s == '+' || s == '-' then t else s :: t
        | [] => []
      match r2 with
      | d :: _ => if d.isDigit then some (r2.dropWhile (·.isDigit)) else none
      | [] => none
    else some (c :: r)

/-- Consume a JSON number literal (RFC 8259 `number` production). -/
def jsonNumber (cs : List Char) : Option (List Char) :=
  let cs1 : List Char :=
    match cs with
    | '-' :: r => r
    | _ => cs
  match cs1 with
  | [] => none
  | c :: r =>
    if c == '0' then (jsonFrac r).bind jsonExp
    else if c.isDigit then (jsonFrac (r.dropWhile (·.isDigit))).bind jsonExp
    else none

mutual

/-- Consume one JSON value; fuel bounds the nesting depth. Models the
grammar accepted by `JSON.parse`. -/
def jsonValue : Nat → List Char → Option (List Char)
  | 0, _ => none
  | fuel + 1, cs =>
    match jsonSkipWs cs with
    | '{' :: rest =>
      (match jsonSkipWs rest with
       | '}' :: r2 => some r2
       | r1 => jsonMembers fuel r1)
    | '[' :: rest =>
      (match jsonSkipWs rest with
       | ']' :: r2 => some r2
       | r1 => jsonElements fuel r1)
    | '"' :: rest => jsonStringRest rest
    | 't' :: 'r' :: 'u' :: 'e' :: rest => some rest
    | 'f' :: 'a' :: 'l' :: 's' :: 'e' :: rest => some rest
    | 'n' :: 'u' :: 'l' :: 'l' :: rest => some rest
    | other => jsonNumber other

/-- Consume the members of a JSON object after `{` (at least one member). -/
def jsonMembers : Nat → List Char → Option (List Char)
  | 0, _ => none
  | fuel + 1, cs =>
    match jsonSkipWs cs with
    | '"' :: rest =>
      (match jsonStringRest rest with
       | none => none
       | some afterKey =>
         match jsonSkipWs afterKey with
         | ':' :: afterColon =>
           (match jsonValue fuel afterColon with
            | none => none
            | some afterVal =>
              match jsonSkipWs afterVal with
              | ',' :: next => jsonMembers fuel next
              | '}' :: r => some r
              | _ => none)
         | _ => none)
    | _ => none

/-- Consume the elements of a JSON array after `[` (at least one element). -/
def jsonElements : Nat → List Char → Option (List Char)
  | 0, _ => none
  | fuel + 1, cs =>
    match jsonValue fuel cs with
    | none => none
    | some afterVal =>
      match jsonSkipWs afterVal with
      | ',' :: next => jsonElements fuel next
      | ']' :: r => some r
      | _ => none

end

/-- Does `JSON.parse(s)` succeed? The fuel `s.length + 1` dominates the
nesting depth, since each nesting level consumes at least one character. -/
def jsonValid (s : String) : Bool :=
  match jsonValue (s.length + 1) s.data with
  | some rest => (jsonSkipWs rest).isEmpty
  | none => false

/-- JavaScript `String.prototype.split` on a one-character separator, at
the character-list level. -/
def splitOnChar (sep : Char) : List Char → List (List Char)
  | [] => [[]]
  | c :: t =>
    let r := splitOnChar sep t
    if c == sep then [] :: r
    else
      match r with
      | x :: xs => (c :: x) :: xs
      | [] => [[c]]

/-- Test of the email regex `^[^\s@]+@[^\s@]+\.[^\s@]+$` of validateCell:
the string splits at a unique `@` into a nonempty whitespace-free local
part and a whitespace-free domain whose interior (first and last character
excluded) contains a dot. -/
def emailRegexTest (s : String) : Bool :=
  match splitOnChar '@' s.data with
  | [a, b] =>
    !a.isEmpty && a.all (fun c => !c.isWhitespace) &&
    b.all (fun c => !c.isWhitespace) &&
    ((b.drop 1).dropLast.any (· == '.'))
  | _ => false

/-- The priority check condition of validateCell (line 140):
`isNaN(priority) || priority < 1 || priority > 5`. -/
def priorityViolation : Option Int → Bool
  | none => true
  | some p => decide (p < 1) || decide (p > 5)

/-- The duration check condition of validateCell (line 158):
`isNaN(duration) || duration <= 0`. -/
def durationViolation : Option JSFloat → Bool
  | none => true
  | some d => jsfNonPos d

/-- The budget check condition of validateCell (line 176):
`isNaN(budget) || budget < 0`. -/
def budgetViolation : Option JSFloat → Bool
  | none => true
  | some b => jsfNeg b

/-- `cellStr.replace(/[$,]/g, '')` of validateCell (line 175). -/
def stripDollarComma (s : String) : String :=
  ⟨s.data.filter (fun c => !(c == '$' || c == ','))⟩

/-- The `ValidationError` record of `@/types` (src/unnamed/part_003). The
per-issue random `id` (`Math.random().toString(36)`) is presentation-only
nondeterminism and is omitted from the embedding; no claim concerns it. -/
structure ValidationError where
  fileId : String
  row : Int
  column : Int
  field : String
  message : String
  severity : String
  type : String
  suggestion : Option String
deriving DecidableEq, Repr

/-- The `DataFile` record of `@/types` (src/unnamed/part_003), restricted
to the fields the validation core reads (`originalData` and `errors` are
written only by the UI shell). -/
structure DataFile where
  id : String
  name : String
  type : String
  headers : List String
  data : List (List Cell)
deriving DecidableEq, Repr

/-- `validateCell` of src/unnamed/part_005 (lines 89-228): classify one
cell value against header-substring heuristics. -/
def validateCell (file : DataFile) (rowIndex colIndex : Nat) (header : String)
    (cell : Cell) : List ValidationError :=
  let headerLower := toLowerStr header
  if !cellTruthy cell || jsTrim (cellToString cell) == "" then
    if containsStr headerLower "id" || containsStr headerLower "name" ||
       containsStr headerLower "email" then
      [{ fileId := file.id, row := rowIndex, column := colIndex, field := header,
         message := "Missing required value in " ++ header,
         severity := "error", type := "missing",
         suggestion := some "Provide a value for this required field" }]
    else []
  else
    let cellStr := jsTrim (cellToString cell)
    (if containsStr headerLower "email" && !emailRegexTest cellStr then
      [{ fileId := file.id, row := rowIndex, column := colIndex, field := header,
         message := "Invalid email format: " ++ cellStr,
         severity := "error", type := "malformed",
         suggestion := some "Use format: user@domain.com" }]
     else []) ++
    (if containsStr headerLower "priority" && priorityViolation (parseIntJS cellStr) then
      [{ fileId := file.id, row := rowIndex, column := colIndex, field := header,
         message := "Priority must be between 1-5, got: " ++ cellStr,
         severity := "error", type := "range",
         suggestion := some "Use values 1 (low) to 5 (high)" }]
     else []) ++
    (if containsStr headerLower "duration" && durationViolation (parseFloatJS cellStr) then
      [{ fileId := file.id, row := rowIndex, column := colIndex, field := header,
         message := "Duration must be a positive number, got: " ++ cellStr,
         severity := "error", type := "range",
         suggestion := some "Use positive numbers (hours/days)" }]
     else []) ++
    (if containsStr headerLower "budget" &&
        budgetViolation (parseFloatJS (stripDollarComma cellStr)) then
      [{ fileId := file.id, row := rowIndex, column := colIndex, field := header,
         message := "Budget must be a positive number, got: " ++ cellStr,
         severity := "warning", type := "range",
         suggestion := some "Use positive numbers without currency symbols" }]
     else []) ++
    (if containsStr headerLower "skill" &&
        (strContainsChar cellStr ';' || strContainsChar cellStr '|') then
      [{ fileId := file.id, row := rowIndex, column := colIndex, field := header,
         message := "Skills should be comma-separated, got: " ++ cellStr,
         severity := "warning", type := "malformed",
         suggestion := some "Use commas to separate skills: \"JavaScript, React, Node.js\"" }]
     else []) ++
    (if (startsWithChar cellStr '{' || startsWithChar cellStr '[') && !jsonValid cellStr then
      [{ fileId := file.id, row := rowIndex, column := colIndex, field := header,
         message := "Invalid JSON format in " ++ header,
         severity := "error", type := "malformed",
         suggestion := some "Fix JSON syntax or use plain text" }]
     else [])

/-- `getRequiredColumns` of src/unnamed/part_005 (lines 67-78). -/
def getRequiredColumns (fileType : String) : List String :=
  if fileType == "clients" then ["id", "name", "email", "priority"]
  else if fileType == "workers" then ["id", "name", "skills", "availability"]
  else if fileType == "tasks" then ["id", "title", "duration", "priority"]
  else ["id"]

/-- `findIdColumn` of src/unnamed/part_005 (lines 80-87): index of the
first header containing "id" but none of "client"/"task"/"worker". The
source's `-1` sentinel is modelled as `none`. -/
def findIdColumn (headers : List String) : Option Nat :=
  headers.findIdx? (fun header =>
    containsStr (toLowerStr header) "id" &&
    !containsStr (toLowerStr header) "client" &&
    !containsStr (toLowerStr header) "task" &&
    !containsStr (toLowerStr header) "worker")

/-- The duplicate-ID scan of validateData (src/unnamed/part_005, lines
44-61): walk the rows with the set of already-seen id values (modelled as
a list probed with `contains`, matching `Set.has` on `Cell`); a truthy id
already seen emits a duplicate error; every id (truthy or not) is then
added to the set. -/
def dupScan (file : DataFile) (idColumn : Nat) :
    List (List Cell) → Nat → List Cell → List ValidationError
  | [], _, _ => []
  | row :: rest, rowIndex, seen =>
    let idv := row.getD idColumn Cell.undefined
    (if cellTruthy idv && seen.contains idv then
      [{ fileId := file.id, row := rowIndex, column := idColumn,
         field := file.headers.getD idColumn "",
         message := "Duplicate ID: " ++ cellToString idv,
         severity := "error", type := "duplicate",
         suggestion := some "Ensure all IDs are unique" }]
     else []) ++ dupScan file idColumn rest (rowIndex + 1) (idv :: seen)

/-- `validateData` of src/unnamed/part_005 (lines 3-65): missing-column
issues, then per-cell issues over every row and header index, then the
duplicate-ID scan. Indexed `forEach` loops are modelled with `List.range`;
the out-of-range access `row[colIndex]` yields `undefined`, and
`file.headers[idColumn]`/`file.headers[colIndex]` are always in range at
their call sites (the `""` default is never used). -/
def validateData (file : DataFile) : List ValidationError :=
  let requiredColumns := getRequiredColumns file.type
  let missingColumns := requiredColumns.filter (fun col =>
    !(file.headers.any (fun header =>
        containsStr (toLowerStr header) (toLowerStr col) ||
        containsStr (toLowerStr col) (toLowerStr header))))
  let missingErrors := missingColumns.map (fun col =>
    { fileId := file.id, row := -1, column := -1, field := col,
      message := "Missing required column: " ++ col,
      severity := "error", type := "missing",
      suggestion := some ("Add a column for " ++ col ++ " or rename an existing column")
      : ValidationError })
  let cellErrors := (List.range file.data.length).flatMap (fun rowIndex =>
    (List.range file.headers.length).flatMap (fun colIndex =>
      validateCell file rowIndex colIndex (file.headers.getD colIndex "")
        ((file.data.getD rowIndex []).getD colIndex Cell.undefined)))
  let dupErrors :=
    match findIdColumn file.headers with
    | some idColumn => dupScan file idColumn file.data 0 []
    | none => []
  missingErrors ++ cellErrors ++ dupErrors

/-- `detectFileType` of src/components/FileUpload.tsx (lines 91-102). Note
that "customer" and "employee" are tested only against the joined header
string resp. also the filename, exactly as in the source. -/
def detectFileType (fileName : String) (headers : List String) : String :=
  let name := toLowerStr fileName
  let headerStr := toLowerStr (jsJoin " " headers)
  if containsStr name "client" || containsStr headerStr "client" ||
     containsStr headerStr "customer" then "clients"
  else if containsStr name "worker" || containsStr name "employee" ||
          containsStr headerStr "worker" || containsStr headerStr "employee" then "workers"
  else "tasks"

/-- `cell?.toString() || ''` of generateCleanedCSV (src/unnamed/part_000,
line 32): nullish cells and the empty string collapse to `""`. -/
def cellOrEmpty : Cell → String
  | .null => ""
  | .undefined => ""
  | c => cellToString c

/-- `cellStr.replace(/"/g, '""')` of generateCleanedCSV (line 34). -/
def csvEscapeQuotes : List Char → List Char
  | [] => []
  | c :: t => if c = '"' then '"' :: '"' :: csvEscapeQuotes t else c :: csvEscapeQuotes t

/-- Serialization of one cell by generateCleanedCSV (lines 30-37): cells
containing a comma, double quote, or newline are wrapped in double quotes
with inner quotes doubled. -/
def csvCellString (cell : Cell) : String :=
  let cellStr := cellOrEmpty cell
  if cellStr.data.any (fun c => c == ',' || c == '"' || c == '\n') then
    ⟨'"' :: (csvEscapeQuotes cellStr.data ++ ['"'])⟩
  else cellStr

/-- `generateCleanedCSV` of src/unnamed/part_000 (lines 27-40): header
line joined with commas (headers are not quote-escaped), then one line
per row of escaped cells, all joined with newlines. -/
def generateCleanedCSV (file : DataFile) : String :=
  let headers := jsJoin "," file.headers
  let rows := file.data.map (fun row => jsJoin "," (row.map csvCellString))
  jsJoin "\n" (headers :: rows)

/-- Scanner state of the CSV reader: outside quotes, inside a quoted
section, or just after a quote character inside a quoted section (which
either doubles to a literal quote or closes the section). -/
inductive CsvState where
  | unq
  | inq
  | postq
deriving DecidableEq, Repr

/-- CSV record scanner modelling `Papa.parse` (delimiter `,`, newline
`\n`, quote `"`): `field`/`row` are the accumulators, `acc` the finished
records. A quote opens a quoted section only at field start; inside
quotes `""` is a literal quote (recognised through the `postq` state). -/
def papaLoop : CsvState → List Char → List Char → List (List Char) →
    List (List (List Char)) → List (List (List Char))
  | _, [], field, row, acc => acc ++ [row ++ [field]]
  | .unq, c :: rest, field, row, acc =>
    if c = '"' && field.isEmpty then papaLoop .inq rest field row acc
    else if c = ',' then papaLoop .unq rest [] (row ++ [field]) acc
    else if c = '\n' then papaLoop .unq rest [] [] (acc ++ [row ++ [field]])
    else papaLoop .unq rest (field ++ [c]) row acc
  | .inq, c :: rest, field, row, acc =>
    if c = '"' then papaLoop .postq rest field row acc
    else papaLoop .inq rest (field ++ [c]) row acc
  | .postq, c :: rest, field, row, acc =>
    if c = '"' then papaLoop .inq rest (field ++ ['"']) row acc
    else if c = ',' then papaLoop .unq rest [] (row ++ [field]) acc
    else if c = '\n' then papaLoop .unq rest [] [] (acc ++ [row ++ [field]])
    else papaLoop .unq rest (field ++ [c]) row acc

/-- `Papa.parse(file, { header: false, skipEmptyLines: true })` as used by
processFile (src/components/FileUpload.tsx, lines 26-56): scan the text
into records and drop records coming from empty lines. -/
def papaParse (text : String) : List (List String) :=
  ((papaLoop .unq text.data [] [] []).filter (fun r => r != [[]])).map
    (fun r => r.map (fun f => (⟨f⟩ : String)))

/-- The header normalization of processFile (lines 35-37):
`header.toString().trim().toLowerCase().replace(/[^a-z0-9]/g, '_')`. -/
def normalizeHeader (h : String) : String :=
  ⟨(toLowerStr (jsTrim h)).data.map (fun c =>
    if ('a' ≤ c && c ≤ 'z') || ('0' ≤ c && c ≤ '9') then c else '_')⟩

/-- The CSV branch of `processFile` (src/components/FileUpload.tsx, lines
26-56): parse, take the first record as headers (normalized), the rest as
the data grid; an empty parse yields `none` (the source resolves null). -/
def parseUploadCSV (text : String) : Option (List String × List (List String)) :=
  match papaParse text with
  | [] => none
  | hs :: rows => some (hs.map normalizeHeader, rows)

/-- The `PriorityWeights` record of `@/types` (src/unnamed/part_003);
JavaScript numbers idealised as exact rationals. -/
structure PriorityWeights where
  priorityLevel : ℚ
  taskFulfillment : ℚ
  fairness : ℚ
  efficiency : ℚ
  resourceUtilization : ℚ
deriving DecidableEq, Repr

/-- A key of `PriorityWeights` (the `key: keyof PriorityWeights` argument
of handleSliderChange). -/
inductive WeightKey where
  | priorityLevel
  | taskFulfillment
  | fairness
  | efficiency
  | resourceUtilization
deriving DecidableEq, Repr

/-- `{ ...priorities, [key]: value }` of handleSliderChange
(src/unnamed/part_002, line 111). -/
def setWeight (p : PriorityWeights) : WeightKey → ℚ → PriorityWeights
  | .priorityLevel, v => { p with priorityLevel := v }
  | .taskFulfillment, v => { p with taskFulfillment := v }
  | .fairness, v => { p with fairness := v }
  | .efficiency, v => { p with efficiency := v }
  | .resourceUtilization, v => { p with resourceUtilization := v }

/-- `Object.values(p).reduce((sum, val) => sum + val, 0)` of
handleSliderChange (line 114). -/
def totalWeight (p : PriorityWeights) : ℚ :=
  p.priorityLevel + p.taskFulfillment + p.fairness + p.efficiency + p.resourceUtilization

/-- `handleSliderChange` of src/unnamed/part_002 (lines 110-122): set the
changed weight, then if the new total is positive divide every weight by
it (the update through `onPrioritiesUpdate` is returned). -/
def handleSliderChange (p : PriorityWeights) (key : WeightKey) (value : ℚ) :
    PriorityWeights :=
  let np := setWeight p key value
  let total := totalWeight np
  if 0 < total then
    { priorityLevel := np.priorityLevel / total,
      taskFulfillment := np.taskFulfillment / total,
      fairness := np.fairness / total,
      efficiency := np.efficiency / total,
      resourceUtilization := np.resourceUtilization / total }
  else np

/-- The `RuleCondition` record of `@/types` (src/unnamed/part_003, lines
33-38); the operator is one of the eight literal strings of the union
type. -/
structure RuleCondition where
  field : String
  operator : String
  value : String
  logicalOperator : Option String
deriving DecidableEq, Repr

/-- JavaScript `x.split(',')` on a condition value. -/
def splitOnComma (s : String) : List String :=
  (splitOnChar ',' s.data).map (fun l => (⟨l⟩ : String))

/-- Modelled from the spec: the rule-condition evaluator is absent from
src/ (only the `RuleCondition` data type and the rule-builder UI exist),
so the operator semantics of spec §4.4 are modelled here.
equals/not-equals are case-sensitive string equality; greater-than and
less-than compare numerically with non-numeric operands evaluating false;
contains is a case-insensitive substring test; regex tests the value
against the condition value compiled as a case-insensitive pattern, with
invalid patterns evaluating false — the host regex engine is abstracted
as a `compile` argument returning `none` on an invalid pattern; in/not-in
split the condition value on commas and test membership
case-insensitively. Unknown operators evaluate false. -/
def evalCondition (compile : String → Option (String → Bool))
    (cond : RuleCondition) (v : String) : Bool :=
  if cond.operator == "equals" then v == cond.value
  else if cond.operator == "not-equals" then v != cond.value
  else if cond.operator == "greater-than" then
    match parseFloatJS v, parseFloatJS cond.value with
    | some a, some b => jsfLt b a
    | _, _ => false
  else if cond.operator == "less-than" then
    match parseFloatJS v, parseFloatJS cond.value with
    | some a, some b => jsfLt a b
    | _, _ => false
  else if cond.operator == "contains" then
    containsStr (toLowerStr v) (toLowerStr cond.value)
  else if cond.operator == "regex" then
    match compile cond.value with
    | some test => test v
    | none => false
  else if cond.operator == "in" then
    (splitOnComma cond.value).any (fun item => toLowerStr item == toLowerStr v)
  else if cond.operator == "not-in" then
    !((splitOnComma cond.value).any (fun item => toLowerStr item == toLowerStr v))
  else false

/-- The cell of `file` at row `i`, column `j` as validateData reads it
(out-of-range reads give `undefined`). -/
def cellAt (file : DataFile) (i j : Nat) : Cell :=
  (file.data.getD i []).getD j Cell.undefined

/-- `jsJoin` at the character-list level. -/
def charJoin (sep : List Char) : List (List Char) → List Char
  | [] => []
  | x :: xs =>
    match xs with
    | [] => x
    | _ :: _ => x ++ sep ++ charJoin sep xs

/-- Serialization of one cell string at the character-list level. -/
def serCellChars (s : List Char) : List Char :=
  if s.any (fun c => c == ',' || c == '"' || c == '\n') then
    '"' :: (csvEscapeQuotes s ++ ['"'])
  else s

/-- The character class produced by the upload header normalizer. -/
def normChar (c : Char) : Prop :=
  ('a' ≤ c ∧ c ≤ 'z') ∨ ('0' ≤ c ∧ c ≤ '9') ∨ c = '_'

instance (c : Char) : Decidable (normChar c) := by
  unfold normChar
  infer_instance

/-! Helper lemmas about the validator. -/

lemma mem_ite_nil {α : Type} {c : Bool} {l : List α} {e : α}
    (h : e ∈ if c then l else []) : c = true ∧ e ∈ l := by
  cases c with
  | true => exact ⟨rfl, h⟩
  | false => simp at h

/-- Every issue emitted by the cell validator is a missing, range, or
malformed issue (never a duplicate). -/
lemma validateCell_type_mem {f : DataFile} {r c : Nat} {h : String} {cell : Cell}
    {e : ValidationError} (he : e ∈ validateCell f r c h cell) :
    e.type = "missing" ∨ e.type = "range" ∨ e.type = "malformed" := by
  unfold validateCell at he
  split at he
  · rcases mem_ite_nil he with ⟨-, he⟩
    simp at he
    subst he
    simp
  · simp only [List.mem_append] at he
    rcases he with ((((he | he) | he) | he) | he) | he <;>
      rcases mem_ite_nil he with ⟨-, he⟩ <;> simp at he <;> subst he <;> simp

/-- Every issue emitted by the cell validator carries the row and column
indices it was invoked with. -/
lemma validateCell_row_col {f : DataFile} {r c : Nat} {h : String} {cell : Cell}
    {e : ValidationError} (he : e ∈ validateCell f r c h cell) :
    e.row = (r : Int) ∧ e.column = (c : Int) := by
  unfold validateCell at he
  split at he
  · rcases mem_ite_nil he with ⟨-, he⟩
    simp at he
    subst he
    simp
  · simp only [List.mem_append] at he
    rcases he with ((((he | he) | he) | he) | he) | he <;>
      rcases mem_ite_nil he with ⟨-, he⟩ <;> simp at he <;> subst he <;> simp

/-- C9: the cell validator treats every falsy cell value (number 0, false,
null, undefined, and the empty or whitespace-only string) as empty: such a
cell short-circuits all later checks, yielding exactly one kind=missing
severity=error issue when the lower-cased header contains "id", "name" or
"email" and no issue at all otherwise; in particular a duration cell
holding the number 0 produces no issue while the string "0" produces a
kind=range severity=error issue. -/
theorem claim_C9 :
    (∀ (file : DataFile) (r c : Nat) (header : String) (cell : Cell),
      cellTruthy cell = false →
        ((containsStr (toLowerStr header) "id" || containsStr (toLowerStr header) "name" ||
          containsStr (toLowerStr header) "email") = true →
          validateCell file r c header cell =
            [{ fileId := file.id, row := (r : Int), column := (c : Int), field := header,
               message := "Missing required value in " ++ header,
               severity := "error", type := "missing",
               suggestion := some "Provide a value for this required field" }]) ∧
        ((containsStr (toLowerStr header) "id" || containsStr (toLowerStr header) "name" ||
          containsStr (toLowerStr header) "email") = false →
          validateCell file r c header cell = [])) ∧
    validateCell ⟨"f1", "tasks.csv", "tasks", ["duration"], []⟩ 0 0 "duration"
      (Cell.num 0) = [] ∧
    validateCell ⟨"f1", "tasks.csv", "tasks", ["duration"], []⟩ 0 0 "duration"
      (Cell.str "0") =
      [{ fileId := "f1", row := 0, column := 0, field := "duration",
         message := "Duration must be a positive number, got: 0",
         severity := "error", type := "range",
         suggestion := some "Use positive numbers (hours/days)" }] := by
  refine ⟨fun file r c header cell hf => ⟨fun hreq => ?_, fun hreq => ?_⟩, by decide, by decide⟩
  · unfold validateCell
    simp [hf, hreq]
  · unfold validateCell
    simp [hf, hreq]

/-- Witness for C9 at a concrete falsy input: a null cell under an "id"
header yields exactly the missing-value issue. -/
theorem claim_C9_witness :
    validateCell ⟨"f1", "clients.csv", "clients", ["id"], []⟩ 0 0 "id" Cell.null =
      [{ fileId := "f1", row := 0, column := 0, field := "id",
         message := "Missing required value in id",
         severity := "error", type := "missing",
         suggestion := some "Provide a value for this required field" }] :=
  (claim_C9.1 ⟨"f1", "clients.csv", "clients", ["id"], []⟩ 0 0 "id" Cell.null
    (by decide)).1 (by decide)

/-- C1 (counterexample): with header "priority" the value "3.5" produces
no issue at all, although 3.5 is not an integer in [1,5] — the claim
demands that it fail. -/
theorem claim_C1_counterexample :
    validateCell ⟨"f1", "tasks.csv", "tasks", ["priority"], []⟩ 0 0 "priority"
      (Cell.str "3.5") = [] ∧
    parseIntJS "3.5" = some 3 := by
  exact ⟨by decide, by decide⟩

/-- C1 (amended): for every cell whose lower-cased header contains
"priority" but neither "duration" nor "budget" (the two other sources of
range issues) and whose value is truthy with non-empty trim, the cell
validator emits no kind=range issue iff JavaScript `parseInt` of the
trimmed value yields an integer in [1,5]; a violation yields exactly one
kind=range severity=error issue. `parseInt` keeps the longest leading
digit run, so "0", "6", "abc" fail while "3.5" parses as 3 and passes. -/
theorem claim_C1_amended :
    ∀ (file : DataFile) (r c : Nat) (header : String) (cell : Cell),
      containsStr (toLowerStr header) "priority" = true →
      containsStr (toLowerStr header) "duration" = false →
      containsStr (toLowerStr header) "budget" = false →
      cellTruthy cell = true →
      jsTrim (cellToString cell) ≠ "" →
      (validateCell file r c header cell).filter (fun e => e.type == "range") =
        (if priorityViolation (parseIntJS (jsTrim (cellToString cell))) then
          [{ fileId := file.id, row := (r : Int), column := (c : Int), field := header,
             message := "Priority must be between 1-5, got: " ++ jsTrim (cellToString cell),
             severity := "error", type := "range",
             suggestion := some "Use values 1 (low) to 5 (high)" }]
         else []) := by
  intro file r c header cell h1 h2 h3 h4 h5
  unfold validateCell
  rw [show (!cellTruthy cell || jsTrim (cellToString cell) == "") = false by
    simp [h4, h5]]
  simp only [Bool.false_eq_true, if_false, List.filter_append, h1, h2, h3,
    Bool.false_and, Bool.true_and, if_false]
  split_ifs <;> simp

/-- Witness for C1 at concrete inputs: "0", "6" and "abc" each yield
exactly one range issue, "3" yields none. -/
theorem claim_C1_witness :
    ((validateCell ⟨"f1", "tasks.csv", "tasks", ["priority"], []⟩ 0 0 "priority"
        (Cell.str "0")).filter (fun e => e.type == "range")).length = 1 ∧
    ((validateCell ⟨"f1", "tasks.csv", "tasks", ["priority"], []⟩ 0 0 "priority"
        (Cell.str "6")).filter (fun e => e.type == "range")).length = 1 ∧
    ((validateCell ⟨"f1", "tasks.csv", "tasks", ["priority"], []⟩ 0 0 "priority"
        (Cell.str "abc")).filter (fun e => e.type == "range")).length = 1 ∧
    ((validateCell ⟨"f1", "tasks.csv", "tasks", ["priority"], []⟩ 0 0 "priority"
        (Cell.str "3")).filter (fun e => e.type == "range")).length = 0 := by
  refine ⟨?_, ?_, ?_, ?_⟩ <;>
    rw [claim_C1_amended _ 0 0 "priority" _ (by decide) (by decide) (by decide)
      (by decide) (by decide)] <;> decide

/-- C3: validation failures are data, never control flow — the validator
is a total function into issue lists. Every issue produced by the cell
validator at any in-range position appears in `validateData`'s output
(processing continues past bad cells); a cell whose trimmed value starts
with `{` or `[` but does not parse as JSON contributes a kind=malformed
severity=error issue at its position; the valid JSON value `{"a":1}`
yields no issue while `{"a":1` yields a malformed error issue. -/
theorem claim_C3 :
    (∀ (file : DataFile) (i j : Nat), i < file.data.length → j < file.headers.length →
      ∀ e ∈ validateCell file i j (file.headers.getD j "") (cellAt file i j),
        e ∈ validateData file) ∧
    (∀ (file : DataFile) (i j : Nat), i < file.data.length → j < file.headers.length →
      cellTruthy (cellAt file i j) = true →
      jsTrim (cellToString (cellAt file i j)) ≠ "" →
      (startsWithChar (jsTrim (cellToString (cellAt file i j))) '{' = true ∨
       startsWithChar (jsTrim (cellToString (cellAt file i j))) '[' = true) →
      jsonValid (jsTrim (cellToString (cellAt file i j))) = false →
      ∃ e ∈ validateData file, e.row = (i : Int) ∧ e.column = (j : Int) ∧
        e.type = "malformed" ∧ e.severity = "error") ∧
    validateCell ⟨"f1", "data.csv", "tasks", ["notes"], []⟩ 0 0 "notes"
      (Cell.str "\x7b\"a\":1\x7d") = [] ∧
    (∃ e ∈ validateCell ⟨"f1", "data.csv", "tasks", ["notes"], []⟩ 0 0 "notes"
      (Cell.str "\x7b\"a\":1"), e.type = "malformed" ∧ e.severity = "error") := by
  have hmem : ∀ (file : DataFile) (i j : Nat), i < file.data.length →
      j < file.headers.length →
      ∀ e ∈ validateCell file i j (file.headers.getD j "") (cellAt file i j),
        e ∈ validateData file := by
    intro file i j hi hj e he
    unfold validateData
    simp only [List.mem_append, List.mem_flatMap, List.mem_range]
    exact Or.inl (Or.inr ⟨i, hi, j, hj, he⟩)
  refine ⟨hmem, ?_, by decide, by decide⟩
  intro file i j hi hj ht hne hstart hjson
  refine ⟨{ fileId := file.id, row := (i : Int), column := (j : Int),
            field := file.headers.getD j "",
            message := "Invalid JSON format in " ++ file.headers.getD j "",
            severity := "error", type := "malformed",
            suggestion := some "Fix JSON syntax or use plain text" },
          hmem file i j hi hj _ ?_, rfl, rfl, rfl, rfl⟩
  unfold validateCell
  rw [show (!cellTruthy (cellAt file i j) ||
        jsTrim (cellToString (cellAt file i j)) == "") = false by simp [ht, hne]]
  have hcond : (startsWithChar (jsTrim (cellToString (cellAt file i j))) '{' ||
      startsWithChar (jsTrim (cellToString (cellAt file i j))) '[') = true := by
    rcases hstart with h | h <;> simp [h]
  simp [hcond, hjson]

/-- Witness for C3 at a concrete file: the single-cell grid holding the
malformed JSON text yields a malformed error issue in `validateData`. -/
theorem claim_C3_witness :
    ∃ e ∈ validateData ⟨"f1", "data.csv", "tasks", ["notes"],
        [[Cell.str "\x7b\"a\":1"]]⟩,
      e.row = ((0 : Nat) : Int) ∧ e.column = ((0 : Nat) : Int) ∧
      e.type = "malformed" ∧ e.severity = "error" :=
  claim_C3.2.1 ⟨"f1", "data.csv", "tasks", ["notes"], [[Cell.str "\x7b\"a\":1"]]⟩ 0 0
    (by decide) (by decide) (by decide) (by decide) (Or.inl (by decide)) (by decide)

/-! Lemmas about the duplicate-identifier scan. -/

/-- Issues from the duplicate scan carry row indices at or above the
starting index. -/
lemma dupScan_row_ge {f : DataFile} {c : Nat} :
    ∀ (rows : List (List Cell)) (i0 : Nat) (seen : List Cell) (e : ValidationError),
      e ∈ dupScan f c rows i0 seen → (i0 : Int) ≤ e.row := by
  intro rows
  induction rows with
  | nil => intro i0 seen e he; simp [dupScan] at he
  | cons row rest ih =>
    intro i0 seen e he
    unfold dupScan at he
    rcases List.mem_append.1 he with h | h
    · rcases mem_ite_nil h with ⟨-, h⟩
      simp at h
      subst h
      simp
    · have := ih (i0 + 1) _ e h
      omega

/-- Issues from the duplicate scan are duplicate errors at the identifier
column. -/
lemma dupScan_props {f : DataFile} {c : Nat} :
    ∀ (rows : List (List Cell)) (i0 : Nat) (seen : List Cell) (e : ValidationError),
      e ∈ dupScan f c rows i0 seen →
      e.type = "duplicate" ∧ e.severity = "error" ∧ e.column = (c : Int) := by
  intro rows
  induction rows with
  | nil => intro i0 seen e he; simp [dupScan] at he
  | cons row rest ih =>
    intro i0 seen e he
    unfold dupScan at he
    rcases List.mem_append.1 he with h | h
    · rcases mem_ite_nil h with ⟨-, h⟩
      simp at h
      subst h
      simp
    · exact ih (i0 + 1) _ e h

/-- Count of duplicate-scan issues at row `i0 + i`: one exactly when the
id value of row `i` is truthy and occurs in `seen` or in an earlier row,
zero otherwise. -/
lemma dupScan_countP {f : DataFile} {c : Nat} :
    ∀ (rows : List (List Cell)) (i0 : Nat) (seen : List Cell) (i : Nat),
      i < rows.length →
      (dupScan f c rows i0 seen).countP (fun e => e.row == ((i0 + i : Nat) : Int)) =
        (if cellTruthy ((rows.getD i []).getD c Cell.undefined) &&
            (seen.contains ((rows.getD i []).getD c Cell.undefined) ||
             (rows.take i).any (fun row =>
               row.getD c Cell.undefined == (rows.getD i []).getD c Cell.undefined))
         then 1 else 0) := by
  intro rows
  induction rows with
  | nil => intro i0 seen i hi; simp at hi
  | cons row rest ih =>
    intro i0 seen i hi
    unfold dupScan
    rw [List.countP_append]
    cases i with
    | zero =>
      have htail : (dupScan f c rest (i0 + 1) ((row.getD c Cell.undefined) :: seen)).countP
          (fun e => e.row == ((i0 + 0 : Nat) : Int)) = 0 := by
        rw [List.countP_eq_zero]
        intro e he
        have := dupScan_row_ge _ _ _ e he
        simp only [beq_iff_eq]
        intro hrow
        rw [hrow] at this
        omega
      rw [htail]
      simp only [List.getD_cons_zero, List.take_zero, List.any_nil, Bool.or_false]
      by_cases hc : (cellTruthy (row.getD c Cell.undefined) &&
          seen.contains (row.getD c Cell.undefined)) = true
      · rw [if_pos hc, if_pos hc]
        simp
      · rw [if_neg hc, if_neg hc]
        simp
    | succ k =>
      have hhead : (if cellTruthy (row.getD c Cell.undefined) &&
            seen.contains (row.getD c Cell.undefined) then
            [{ fileId := f.id, row := (i0 : Int), column := (c : Int),
               field := f.headers.getD c "",
               message := "Duplicate ID: " ++ cellToString (row.getD c Cell.undefined),
               severity := "error", type := "duplicate",
               suggestion := some "Ensure all IDs are unique" }]
          else ([] : List ValidationError)).countP
          (fun e => e.row == ((i0 + (k + 1) : Nat) : Int)) = 0 := by
        split
        · simp only [List.countP_cons, List.countP_nil]
          simp only [beq_iff_eq]
          norm_num
          omega
        · simp
      rw [hhead]
      have hih := ih (i0 + 1) ((row.getD c Cell.undefined) :: seen) k (by simpa using hi)
      simp only [show i0 + 1 + k = i0 + (k + 1) from by omega] at hih
      rw [hih]
      simp only [List.getD_cons_succ, List.take_succ_cons, List.any_cons,
        List.contains_cons, Nat.zero_add]
      by_cases h2 : row.getD c Cell.undefined = (rest.getD k []).getD c Cell.undefined
      · simp only [h2]
        simp [Bool.or_left_comm, Bool.or_comm]
      · have hp : ((rest.getD k []).getD c Cell.undefined == row.getD c Cell.undefined)
            = false := by
          simp only [beq_eq_false_iff_ne, ne_eq]
          exact fun h => h2 h.symm
        have hs : (row.getD c Cell.undefined == (rest.getD k []).getD c Cell.undefined)
            = false := by
          simp only [beq_eq_false_iff_ne, ne_eq]
          exact h2
        simp only [hp, hs]
        simp

/-- Count of duplicate issues of `validateData` at row `i`: one exactly
when the identifier value of row `i` is truthy and already occurs in an
earlier row, zero otherwise. -/
lemma validateData_dup_countP (file : DataFile) (c : Nat)
    (hc : findIdColumn file.headers = some c) (i : Nat) (hi : i < file.data.length) :
    (validateData file).countP (fun e => e.type == "duplicate" && e.row == (i : Int)) =
      (if cellTruthy (cellAt file i c) && (file.data.take i).any
          (fun row => row.getD c Cell.undefined == cellAt file i c)
       then 1 else 0) := by
  unfold validateData
  simp only [hc]
  rw [List.countP_append, List.countP_append]
  have hmissing : (List.countP (fun e => e.type == "duplicate" && e.row == (i : Int))
      (((getRequiredColumns file.type).filter (fun col =>
        !(file.headers.any (fun header =>
            containsStr (toLowerStr header) (toLowerStr col) ||
            containsStr (toLowerStr col) (toLowerStr header))))).map (fun col =>
      { fileId := file.id, row := -1, column := -1, field := col,
        message := "Missing required column: " ++ col,
        severity := "error", type := "missing",
        suggestion := some ("Add a column for " ++ col ++ " or rename an existing column")
        : ValidationError }))) = 0 := by
    rw [List.countP_eq_zero]
    intro e he
    rcases List.mem_map.1 he with ⟨col, -, rfl⟩
    simp
  have hcells : (List.countP (fun e => e.type == "duplicate" && e.row == (i : Int))
      ((List.range file.data.length).flatMap (fun rowIndex =>
        (List.range file.headers.length).flatMap (fun colIndex =>
          validateCell file rowIndex colIndex (file.headers.getD colIndex "")
            ((file.data.getD rowIndex []).getD colIndex Cell.undefined))))) = 0 := by
    rw [List.countP_eq_zero]
    intro e he
    rcases List.mem_flatMap.1 he with ⟨ri, -, he⟩
    rcases List.mem_flatMap.1 he with ⟨ci, -, he⟩
    rcases validateCell_type_mem he with h | h | h <;> simp [h]
  rw [hmissing, hcells]
  have hdup : (List.countP (fun e => e.type == "duplicate" && e.row == (i : Int))
      (dupScan file c file.data 0 [])) =
      (List.countP (fun e => e.row == (i : Int)) (dupScan file c file.data 0 [])) := by
    apply List.countP_congr
    intro e he
    rcases dupScan_props _ _ _ e he with ⟨ht, -, -⟩
    simp [ht]
  rw [hdup]
  have := dupScan_countP (f := file) (c := c) file.data 0 [] i hi
  simp only [Nat.zero_add, List.contains_nil, Bool.false_or] at this
  rw [this]
  simp [cellAt]

/-- C2 (counterexample): the identifier column is found (index 0), the
empty-string identifier occurs a second time at row 1, yet no duplicate
issue is emitted — the code skips falsy identifier values, so the claim
as stated fails. -/
theorem claim_C2_counterexample :
    findIdColumn (["id"] : List String) = some 0 ∧
    (validateData ⟨"f1", "clients.csv", "clients", ["id"],
        [[Cell.str ""], [Cell.str ""]]⟩).filter (fun e => e.type == "duplicate") = [] := by
  exact ⟨by decide, by decide⟩

/-- C2 (amended): when the file validator locates an identifier column
(first header containing "id" but not "client"/"task"/"worker"), a
duplicate issue is emitted at row `i` exactly when the identifier value of
row `i` is truthy and occurred in an earlier row — i.e. at each
second-and-later occurrence of a truthy identifier value, never at the
first occurrence and never for falsy identifiers; duplicate issues have
severity=error at the identifier column; for identifier column values
[A, B, A, C, A] issues are emitted at row indices 2 and 4 only. -/
theorem claim_C2_amended :
    (∀ (file : DataFile) (c : Nat), findIdColumn file.headers = some c →
      ∀ i, i < file.data.length →
        ((validateData file).countP
            (fun e => e.type == "duplicate" && e.row == (i : Int)) =
          (if cellTruthy (cellAt file i c) && (file.data.take i).any
              (fun row => row.getD c Cell.undefined == cellAt file i c)
           then 1 else 0)) ∧
        (∀ e ∈ validateData file, e.type = "duplicate" →
          e.severity = "error" ∧ e.column = (c : Int))) ∧
    ((validateData ⟨"f1", "tasks.csv", "tasks", ["id"],
        [[Cell.str "A"], [Cell.str "B"], [Cell.str "A"], [Cell.str "C"],
         [Cell.str "A"]]⟩).filter (fun e => e.type == "duplicate")).map
      (fun e => e.row) = [2, 4] := by
  refine ⟨fun file c hc i hi => ⟨validateData_dup_countP file c hc i hi, ?_⟩, by decide⟩
  intro e he hdup
  unfold validateData at he
  simp only [hc] at he
  rcases List.mem_append.1 he with he | he
  · rcases List.mem_append.1 he with he | he
    · rcases List.mem_map.1 he with ⟨col, -, rfl⟩
      simp at hdup
    · rcases List.mem_flatMap.1 he with ⟨ri, -, he⟩
      rcases List.mem_flatMap.1 he with ⟨ci, -, he⟩
      rcases validateCell_type_mem he with h | h | h <;> rw [h] at hdup <;> simp at hdup
  · rcases dupScan_props _ _ _ e he with ⟨-, h1, h2⟩
    exact ⟨h1, h2⟩

/-- Witness for C2 at the [A, B, A, C, A] file: exactly one duplicate
issue at row 2 and none at row 0. -/
theorem claim_C2_witness :
    (validateData ⟨"f1", "tasks.csv", "tasks", ["id"],
        [[Cell.str "A"], [Cell.str "B"], [Cell.str "A"], [Cell.str "C"],
         [Cell.str "A"]]⟩).countP
      (fun e => e.type == "duplicate" && e.row == ((2 : Nat) : Int)) = 1 ∧
    (validateData ⟨"f1", "tasks.csv", "tasks", ["id"],
        [[Cell.str "A"], [Cell.str "B"], [Cell.str "A"], [Cell.str "C"],
         [Cell.str "A"]]⟩).countP
      (fun e => e.type == "duplicate" && e.row == ((0 : Nat) : Int)) = 0 := by
  constructor
  · rw [(claim_C2_amended.1 _ 0 (by decide) 2 (by decide)).1]
    decide
  · rw [(claim_C2_amended.1 _ 0 (by decide) 0 (by decide)).1]
    decide

/-- C10: duplicate-identifier detection never emits a duplicate issue for
a row whose identifier cell is falsy (empty string, 0, false, null,
undefined), even when many rows share that falsy value: a grid whose
identifier column is ["", "", 0, 0, null] yields no duplicate issue at
all. -/
theorem claim_C10 :
    (∀ (file : DataFile) (c : Nat), findIdColumn file.headers = some c →
      ∀ i, i < file.data.length → cellTruthy (cellAt file i c) = false →
        (validateData file).countP
          (fun e => e.type == "duplicate" && e.row == (i : Int)) = 0) ∧
    (validateData ⟨"f1", "tasks.csv", "tasks", ["id"],
        [[Cell.str ""], [Cell.str ""], [Cell.num 0], [Cell.num 0],
         [Cell.null]]⟩).filter (fun e => e.type == "duplicate") = [] := by
  refine ⟨?_, by decide⟩
  intro file c hc i hi hfalsy
  rw [validateData_dup_countP file c hc i hi]
  simp [hfalsy]

/-- Witness for C10: in a grid whose identifier column repeats the empty
string, row 1 (a second occurrence) produces no duplicate issue. -/
theorem claim_C10_witness :
    (validateData ⟨"f1", "tasks.csv", "tasks", ["id"],
        [[Cell.str ""], [Cell.str ""]]⟩).countP
      (fun e => e.type == "duplicate" && e.row == ((1 : Nat) : Int)) = 0 :=
  claim_C10.1 ⟨"f1", "tasks.csv", "tasks", ["id"], [[Cell.str ""], [Cell.str ""]]⟩ 0
    (by decide) 1 (by decide) (by decide)

/-- The required-column lists are duplicate-free for every file type. -/
lemma getRequiredColumns_nodup (t : String) : (getRequiredColumns t).Nodup := by
  unfold getRequiredColumns
  split_ifs <;> decide

/-- C8: for every file and every required column (per the file's type)
matched by no header under bidirectional case-insensitive substring
containment, validateData emits exactly one file-level issue (row=-1) with
that column as field, and that issue has column=-1, kind=missing,
severity=error and a suggestion text; in particular a clients file with
headers [id, name, priority] (no header containing "email") yields exactly
one such issue with field "email". -/
theorem claim_C8 :
    (∀ (file : DataFile) (col : String), col ∈ getRequiredColumns file.type →
      (¬ ∃ header ∈ file.headers,
          containsStr (toLowerStr header) (toLowerStr col) = true ∨
          containsStr (toLowerStr col) (toLowerStr header) = true) →
      ((validateData file).countP (fun e => e.row == (-1 : Int) && e.field == col) = 1 ∧
       ∀ e ∈ validateData file, e.row = (-1 : Int) → e.field = col →
         e.column = (-1 : Int) ∧ e.type = "missing" ∧ e.severity = "error" ∧
         e.suggestion = some ("Add a column for " ++ col ++
           " or rename an existing column"))) ∧
    (validateData ⟨"f1", "clients.csv", "clients", ["id", "name", "priority"],
        []⟩).countP (fun e => e.row == (-1 : Int) && e.field == "email") = 1 := by
  refine ⟨?_, by decide⟩
  intro file col hcol hnomatch
  have hfilter : (!(file.headers.any (fun header =>
      containsStr (toLowerStr header) (toLowerStr col) ||
      containsStr (toLowerStr col) (toLowerStr header)))) = true := by
    simp only [Bool.not_eq_true', List.any_eq_false]
    intro header hh
    simp only [Bool.not_eq_true, Bool.or_eq_false_iff]
    constructor
    · by_contra h
      exact hnomatch ⟨header, hh, Or.inl (by simpa using h)⟩
    · by_contra h
      exact hnomatch ⟨header, hh, Or.inr (by simpa using h)⟩
  constructor
  · unfold validateData
    rw [List.countP_append, List.countP_append]
    have hcells : (List.countP (fun e => e.row == (-1 : Int) && e.field == col)
        ((List.range file.data.length).flatMap (fun rowIndex =>
          (List.range file.headers.length).flatMap (fun colIndex =>
            validateCell file rowIndex colIndex (file.headers.getD colIndex "")
              ((file.data.getD rowIndex []).getD colIndex Cell.undefined))))) = 0 := by
      rw [List.countP_eq_zero]
      intro e he
      rcases List.mem_flatMap.1 he with ⟨ri, -, he⟩
      rcases List.mem_flatMap.1 he with ⟨ci, -, he⟩
      rcases validateCell_row_col he with ⟨hr, -⟩
      simp only [Bool.and_eq_true, beq_iff_eq, not_and]
      intro h
      rw [hr] at h
      omega
    have hdup : (List.countP (fun e => e.row == (-1 : Int) && e.field == col)
        (match findIdColumn file.headers with
         | some idColumn => dupScan file idColumn file.data 0 []
         | none => [])) = 0 := by
      cases hfind : findIdColumn file.headers with
      | none => simp
      | some idColumn =>
        simp only
        rw [List.countP_eq_zero]
        intro e he
        have := dupScan_row_ge _ _ _ e he
        simp only [Bool.and_eq_true, beq_iff_eq, not_and]
        intro h
        rw [h] at this
        omega
    rw [hcells, hdup]
    rw [List.countP_map]
    have hpred : ∀ c' ∈ (getRequiredColumns file.type).filter (fun col2 =>
        !(file.headers.any (fun header =>
          containsStr (toLowerStr header) (toLowerStr col2) ||
          containsStr (toLowerStr col2) (toLowerStr header)))),
        ((fun e => e.row == (-1 : Int) && e.field == col) ∘ (fun col2 =>
          ({ fileId := file.id, row := -1, column := -1, field := col2,
             message := "Missing required column: " ++ col2,
             severity := "error", type := "missing",
             suggestion := some ("Add a column for " ++ col2 ++
               " or rename an existing column") } : ValidationError))) c'
          = (c' == col) := by
      intro c' _
      simp
    have hcongr : List.countP ((fun e => e.row == (-1 : Int) && e.field == col) ∘
        (fun col2 =>
          ({ fileId := file.id, row := -1, column := -1, field := col2,
             message := "Missing required column: " ++ col2,
             severity := "error", type := "missing",
             suggestion := some ("Add a column for " ++ col2 ++
               " or rename an existing column") } : ValidationError)))
        ((getRequiredColumns file.type).filter (fun col2 =>
          !(file.headers.any (fun header =>
            containsStr (toLowerStr header) (toLowerStr col2) ||
            containsStr (toLowerStr col2) (toLowerStr header))))) =
        List.countP (fun c' => c' == col)
        ((getRequiredColumns file.type).filter (fun col2 =>
          !(file.headers.any (fun header =>
            containsStr (toLowerStr header) (toLowerStr col2) ||
            containsStr (toLowerStr col2) (toLowerStr header))))) :=
      List.countP_congr (fun x hx => by rw [hpred x hx])
    rw [hcongr]
    have hmem : col ∈ (getRequiredColumns file.type).filter (fun col2 =>
        !(file.headers.any (fun header =>
          containsStr (toLowerStr header) (toLowerStr col2) ||
          containsStr (toLowerStr col2) (toLowerStr header)))) :=
      List.mem_filter.2 ⟨hcol, hfilter⟩
    have hnd : ((getRequiredColumns file.type).filter (fun col2 =>
        !(file.headers.any (fun header =>
          containsStr (toLowerStr header) (toLowerStr col2) ||
          containsStr (toLowerStr col2) (toLowerStr header))))).Nodup :=
      (getRequiredColumns_nodup file.type).filter _
    have := List.count_eq_one_of_mem hnd hmem
    simpa [List.count] using this
  · intro e he hrow hfield
    unfold validateData at he
    rcases List.mem_append.1 he with he | he
    · rcases List.mem_append.1 he with he | he
      · rcases List.mem_map.1 he with ⟨col2, -, rfl⟩
        have hcol2 : col2 = col := hfield
        subst hcol2
        simp
      · rcases List.mem_flatMap.1 he with ⟨ri, -, he⟩
        rcases List.mem_flatMap.1 he with ⟨ci, -, he⟩
        rcases validateCell_row_col he with ⟨hr, -⟩
        rw [hrow] at hr
        omega
    · revert he
      cases hfind : findIdColumn file.headers with
      | none => intro he; simp at he
      | some idColumn =>
        intro he
        simp only at he
        have := dupScan_row_ge _ _ _ e he
        rw [hrow] at this
        omega

/-- Witness for C8: the clients file with headers [id, name, priority]
misses the "email" column, and the theorem yields exactly one file-level
issue with field "email". -/
theorem claim_C8_witness :
    (validateData ⟨"f1", "clients.csv", "clients", ["id", "name", "priority"],
        [[Cell.str "1", Cell.str "Ann", Cell.str "3"]]⟩).countP
      (fun e => e.row == (-1 : Int) && e.field == "email") = 1 :=
  (claim_C8.1 ⟨"f1", "clients.csv", "clients", ["id", "name", "priority"],
      [[Cell.str "1", Cell.str "Ann", Cell.str "3"]]⟩ "email"
    (by decide) (by decide)).1

/-- C4: for every weight vector with non-negative entries and every
single-weight edit whose substituted vector has strictly positive total,
the slider-change handler returns a vector summing to exactly 1, with all
five entries (the edited one included) divided by that total. JavaScript
numbers are idealised as exact rationals. -/
theorem claim_C4 :
    ∀ (p : PriorityWeights) (key : WeightKey) (v : ℚ),
      0 ≤ p.priorityLevel → 0 ≤ p.taskFulfillment → 0 ≤ p.fairness →
      0 ≤ p.efficiency → 0 ≤ p.resourceUtilization →
      0 < totalWeight (setWeight p key v) →
      totalWeight (handleSliderChange p key v) = 1 ∧
      handleSliderChange p key v =
        { priorityLevel :=
            (setWeight p key v).priorityLevel / totalWeight (setWeight p key v),
          taskFulfillment :=
            (setWeight p key v).taskFulfillment / totalWeight (setWeight p key v),
          fairness := (setWeight p key v).fairness / totalWeight (setWeight p key v),
          efficiency := (setWeight p key v).efficiency / totalWeight (setWeight p key v),
          resourceUtilization :=
            (setWeight p key v).resourceUtilization / totalWeight (setWeight p key v) } := by
  intro p key v h1 h2 h3 h4 h5 hpos
  unfold handleSliderChange
  rw [if_pos hpos]
  refine ⟨?_, rfl⟩
  show (setWeight p key v).priorityLevel / totalWeight (setWeight p key v) +
      (setWeight p key v).taskFulfillment / totalWeight (setWeight p key v) +
      (setWeight p key v).fairness / totalWeight (setWeight p key v) +
      (setWeight p key v).efficiency / totalWeight (setWeight p key v) +
      (setWeight p key v).resourceUtilization / totalWeight (setWeight p key v) = 1
  rw [div_add_div_same, div_add_div_same, div_add_div_same, div_add_div_same]
  exact div_self (ne_of_gt hpos)

/-- Witness for C4 at the default weights {0.3, 0.25, 0.2, 0.15, 0.1} with
priorityLevel set to 0.6: the new total is 1.3 and the result sums to 1
with every entry divided by 1.3. -/
theorem claim_C4_witness :
    totalWeight (handleSliderChange ⟨3/10, 1/4, 1/5, 3/20, 1/10⟩
      WeightKey.priorityLevel (3/5)) = 1 ∧
    (handleSliderChange ⟨3/10, 1/4, 1/5, 3/20, 1/10⟩ WeightKey.priorityLevel
      (3/5)).taskFulfillment = (1/4) / (13/10) := by
  have h := claim_C4 ⟨3/10, 1/4, 1/5, 3/20, 1/10⟩ WeightKey.priorityLevel (3/5)
    (by norm_num) (by norm_num) (by norm_num) (by norm_num) (by norm_num)
    (by show (0 : ℚ) < totalWeight _; unfold totalWeight setWeight; norm_num)
  refine ⟨h.1, ?_⟩
  rw [h.2]
  show ((1 : ℚ)/4) / totalWeight (setWeight _ _ _) = (1/4) / (13/10)
  unfold totalWeight setWeight
  norm_num

/-- C6 (counterexample): the filename "customers.csv" contains "customer",
yet the file is classified as tasks, not clients — the source checks
"customer" only against the joined headers, never against the filename. -/
theorem claim_C6_counterexample :
    containsStr (toLowerStr "customers.csv") "customer" = true ∧
    detectFileType "customers.csv" ["title"] = "tasks" := by
  exact ⟨by decide, by decide⟩

/-- C6 (amended): the category is clients iff the filename contains
"client" or the joined lower-cased header string contains "client" or
"customer" ("customer" in the filename alone does not count); otherwise
workers iff the filename or the joined header string contains "worker" or
"employee"; otherwise tasks. -/
theorem claim_C6_amended :
    ∀ (fileName : String) (headers : List String),
      (detectFileType fileName headers = "clients" ↔
        (containsStr (toLowerStr fileName) "client" = true ∨
         containsStr (toLowerStr (jsJoin " " headers)) "client" = true ∨
         containsStr (toLowerStr (jsJoin " " headers)) "customer" = true)) ∧
      (detectFileType fileName headers = "workers" ↔
        (¬ (containsStr (toLowerStr fileName) "client" = true ∨
            containsStr (toLowerStr (jsJoin " " headers)) "client" = true ∨
            containsStr (toLowerStr (jsJoin " " headers)) "customer" = true) ∧
         (containsStr (toLowerStr fileName) "worker" = true ∨
          containsStr (toLowerStr fileName) "employee" = true ∨
          containsStr (toLowerStr (jsJoin " " headers)) "worker" = true ∨
          containsStr (toLowerStr (jsJoin " " headers)) "employee" = true))) ∧
      (detectFileType fileName headers = "tasks" ↔
        (¬ (containsStr (toLowerStr fileName) "client" = true ∨
            containsStr (toLowerStr (jsJoin " " headers)) "client" = true ∨
            containsStr (toLowerStr (jsJoin " " headers)) "customer" = true) ∧
         ¬ (containsStr (toLowerStr fileName) "worker" = true ∨
            containsStr (toLowerStr fileName) "employee" = true ∨
            containsStr (toLowerStr (jsJoin " " headers)) "worker" = true ∨
            containsStr (toLowerStr (jsJoin " " headers)) "employee" = true))) := by
  intro fileName headers
  unfold detectFileType
  dsimp only
  have e12 : ("clients" : String) ≠ "workers" := by decide
  have e13 : ("clients" : String) ≠ "tasks" := by decide
  have e21 : ("workers" : String) ≠ "clients" := by decide
  have e23 : ("workers" : String) ≠ "tasks" := by decide
  have e31 : ("tasks" : String) ≠ "clients" := by decide
  have e32 : ("tasks" : String) ≠ "workers" := by decide
  split_ifs with hc hw
  · simp only [Bool.or_eq_true, or_assoc] at hc
    simp [hc, e12, e13]
  · simp only [Bool.or_eq_true, or_assoc] at hc hw
    simp [hc, hw, e21, e23]
  · simp only [Bool.or_eq_true, or_assoc] at hc hw
    simp [hc, hw, e31, e32]

/-- The substring test agrees with list-infix containment. -/
lemma containsList_iff {sub hay : List Char} :
    containsList sub hay = true ↔ sub <:+: hay := by
  induction hay with
  | nil =>
    simp [containsList]
  | cons c t ih =>
    simp only [containsList, Bool.or_eq_true, ih, List.infix_cons_iff]
    constructor
    · rintro (h | h)
      · exact Or.inl (List.isPrefixOf_iff_prefix.1 h)
      · exact Or.inr h
    · rintro (h | h)
      · exact Or.inl (List.isPrefixOf_iff_prefix.2 h)
      · exact Or.inr h

/-- C7: the rule-condition operator semantics (spec-modelled evaluator,
the host regex engine abstracted as `compile`): equals/not-equals are
case-sensitive string equality, greater-than/less-than compare
numerically with non-numeric operands evaluating false, contains is
case-insensitive substring containment, regex evaluates through the
compiled pattern with invalid patterns (compile failure) false, in/not-in
are case-insensitive membership in the comma-separated condition value;
the condition {field: priority, operator: equals, value: high} is true
against "high" and false against "3". -/
theorem claim_C7 :
    ∀ (compile : String → Option (String → Bool)) (f x v : String) (lo : Option String),
      (evalCondition compile ⟨f, "equals", x, lo⟩ v = true ↔ v = x) ∧
      (evalCondition compile ⟨f, "not-equals", x, lo⟩ v = true ↔ ¬ v = x) ∧
      (evalCondition compile ⟨f, "greater-than", x, lo⟩ v = true ↔
        ∃ a b, parseFloatJS v = some a ∧ parseFloatJS x = some b ∧ jsfLt b a = true) ∧
      (evalCondition compile ⟨f, "less-than", x, lo⟩ v = true ↔
        ∃ a b, parseFloatJS v = some a ∧ parseFloatJS x = some b ∧ jsfLt a b = true) ∧
      (evalCondition compile ⟨f, "contains", x, lo⟩ v = true ↔
        (toLowerStr x).data <:+: (toLowerStr v).data) ∧
      (evalCondition compile ⟨f, "regex", x, lo⟩ v = true ↔
        ∃ test, compile x = some test ∧ test v = true) ∧
      (evalCondition compile ⟨f, "in", x, lo⟩ v = true ↔
        ∃ item ∈ splitOnComma x, toLowerStr item = toLowerStr v) ∧
      (evalCondition compile ⟨f, "not-in", x, lo⟩ v = true ↔
        ¬ ∃ item ∈ splitOnComma x, toLowerStr item = toLowerStr v) ∧
      evalCondition compile ⟨"priority", "equals", "high", none⟩ "high" = true ∧
      evalCondition compile ⟨"priority", "equals", "high", none⟩ "3" = false := by
  intro compile f x v lo
  refine ⟨?_, ?_, ?_, ?_, ?_, ?_, ?_, ?_, ?_, ?_⟩
  · simp [evalCondition]
  · simp [evalCondition]
  · simp only [evalCondition]
    norm_num
    cases hv : parseFloatJS v <;> cases hx : parseFloatJS x <;> simp
  · simp only [evalCondition]
    norm_num
    cases hv : parseFloatJS v <;> cases hx : parseFloatJS x <;> simp
  · simp only [evalCondition]
    norm_num
    exact containsList_iff
  · simp only [evalCondition]
    norm_num
    cases hx : compile x <;> simp
  · simp [evalCondition]
  · simp [evalCondition]
  · simp [evalCondition]
  · simp [evalCondition]

/-! Round-trip lemmas: the cleaned-CSV generator against the upload
parser. -/

lemma mk_data (s : String) : (⟨s.data⟩ : String) = s := by
  cases s
  rfl

lemma jsJoin_data (sep : String) (l : List String) :
    (jsJoin sep l).data = charJoin sep.data (l.map String.data) := by
  induction l with
  | nil => rfl
  | cons x xs ih =>
    cases xs with
    | nil => rfl
    | cons y ys =>
      show (x ++ sep ++ jsJoin sep (y :: ys)).data =
        x.data ++ sep.data ++ charJoin sep.data ((y :: ys).map String.data)
      rw [String.data_append, String.data_append, ih]

lemma csvCellString_data (cell : Cell) :
    (csvCellString cell).data = serCellChars (cellOrEmpty cell).data := by
  unfold csvCellString serCellChars
  dsimp only
  split_ifs <;> rfl

/-- After a closing quote, a delimiter, newline, or end of input behaves
as in the unquoted state. -/
lemma papaLoop_postq_exit (rest : List Char) (field : List Char)
    (row : List (List Char)) (acc : List (List (List Char)))
    (h : rest = [] ∨ rest.head? = some ',' ∨ rest.head? = some '\n') :
    papaLoop .postq rest field row acc = papaLoop .unq rest field row acc := by
  rcases h with rfl | h | h
  · rfl
  · cases rest with
    | nil => simp at h
    | cons d t =>
      have : d = ',' := by simpa using h
      subst this
      rfl
  · cases rest with
    | nil => simp at h
    | cons d t =>
      have : d = '\n' := by simpa using h
      subst this
      rfl

/-- Consuming a run of plain characters (no comma, quote, or newline) in
the unquoted state appends them to the current field. -/
lemma papaLoop_consume_plain :
    ∀ (s rest field : List Char) (row : List (List Char))
      (acc : List (List (List Char))),
      s.any (fun c => c == ',' || c == '"' || c == '\n') = false →
      papaLoop .unq (s ++ rest) field row acc = papaLoop .unq rest (field ++ s) row acc := by
  intro s
  induction s with
  | nil => intro rest field row acc _; simp
  | cons c t ih =>
    intro rest field row acc hs
    simp only [List.any_cons, Bool.or_eq_false_iff, beq_eq_false_iff_ne, ne_eq] at hs
    obtain ⟨⟨⟨hc1, hc2⟩, hc3⟩, ht⟩ := hs
    show papaLoop .unq (c :: (t ++ rest)) field row acc = _
    rw [papaLoop]
    rw [if_neg (by simp [hc2]), if_neg (by simpa using hc1), if_neg (by simpa using hc3)]
    rw [ih rest (field ++ [c]) row acc ht]
    simp

/-- Consuming the quote-doubled image of `s` followed by a closing quote
appends `s` to the current field and leaves the scanner just after the
closing quote. -/
lemma papaLoop_consume_quoted :
    ∀ (s rest field : List Char) (row : List (List Char))
      (acc : List (List (List Char))),
      papaLoop .inq (csvEscapeQuotes s ++ ('"' :: rest)) field row acc =
        papaLoop .postq rest (field ++ s) row acc := by
  intro s
  induction s with
  | nil =>
    intro rest field row acc
    show papaLoop .inq ('"' :: rest) field row acc = _
    rw [papaLoop, if_pos rfl]
    simp
  | cons c t ih =>
    intro rest field row acc
    by_cases hc : c = '"'
    · subst hc
      rw [show csvEscapeQuotes ('"' :: t) = '"' :: '"' :: csvEscapeQuotes t from by
        rw [csvEscapeQuotes, if_pos rfl]]
      show papaLoop .inq ('"' :: ('"' :: (csvEscapeQuotes t ++ ('"' :: rest))))
          field row acc = _
      rw [papaLoop, if_pos rfl, papaLoop, if_pos rfl]
      rw [ih rest (field ++ ['"']) row acc]
      simp
    · rw [show csvEscapeQuotes (c :: t) = c :: csvEscapeQuotes t from by
        rw [csvEscapeQuotes, if_neg hc]]
      show papaLoop .inq (c :: (csvEscapeQuotes t ++ ('"' :: rest))) field row acc = _
      rw [papaLoop, if_neg hc]
      rw [ih rest (field ++ [c]) row acc]
      simp

/-- Consuming one serialized cell before a delimiter, newline, or end of
input turns it into the current field. -/
lemma papaLoop_serCell (s rest : List Char) (row : List (List Char))
    (acc : List (List (List Char)))
    (h : rest = [] ∨ rest.head? = some ',' ∨ rest.head? = some '\n') :
    papaLoop .unq (serCellChars s ++ rest) [] row acc = papaLoop .unq rest s row acc := by
  unfold serCellChars
  split_ifs with hs
  · rw [show ('"' :: (csvEscapeQuotes s ++ ['"'])) ++ rest =
      '"' :: (csvEscapeQuotes s ++ ('"' :: rest)) from by simp]
    rw [papaLoop, if_pos (by decide)]
    rw [papaLoop_consume_quoted s rest [] row acc]
    rw [papaLoop_postq_exit rest ([] ++ s) row acc h]
    simp
  · rw [papaLoop_consume_plain s rest [] row acc (by simpa using hs)]
    simp

/-- Consuming one serialized row followed by a newline finishes the
record and restarts the scanner on the remaining input. -/
lemma papaLoop_row_newline :
    ∀ (cells : List (List Char)) (rest : List Char) (row : List (List Char))
      (acc : List (List (List Char))),
      cells ≠ [] →
      papaLoop .unq (charJoin [','] (cells.map serCellChars) ++ ('\n' :: rest))
          [] row acc =
        papaLoop .unq rest [] [] (acc ++ [row ++ cells]) := by
  intro cells
  induction cells with
  | nil => intro rest row acc h; exact absurd rfl h
  | cons c cs ih =>
    intro rest row acc _
    cases cs with
    | nil =>
      rw [show charJoin [','] ([c].map serCellChars) = serCellChars c from rfl]
      rw [papaLoop_serCell c ('\n' :: rest) row acc (Or.inr (Or.inr rfl))]
      rw [papaLoop, if_neg (by simp), if_neg (by decide), if_pos rfl]
    | cons c2 t =>
      rw [show charJoin [','] ((c :: c2 :: t).map serCellChars) ++ ('\n' :: rest) =
          serCellChars c ++
            (',' :: (charJoin [','] ((c2 :: t).map serCellChars) ++ ('\n' :: rest)))
        from by simp [charJoin]]
      rw [papaLoop_serCell c
        (',' :: (charJoin [','] ((c2 :: t).map serCellChars) ++ ('\n' :: rest)))
        row acc (Or.inr (Or.inl rfl))]
      rw [papaLoop, if_neg (by simp), if_pos rfl]
      rw [ih rest (row ++ [c]) acc (by simp)]
      simp

/-- Consuming one serialized row at the end of the input finishes the
final record. -/
lemma papaLoop_row_end :
    ∀ (cells : List (List Char)) (row : List (List Char))
      (acc : List (List (List Char))),
      cells ≠ [] →
      papaLoop .unq (charJoin [','] (cells.map serCellChars)) [] row acc =
        acc ++ [row ++ cells] := by
  intro cells
  induction cells with
  | nil => intro row acc h; exact absurd rfl h
  | cons c cs ih =>
    intro row acc _
    cases cs with
    | nil =>
      rw [show charJoin [','] ([c].map serCellChars) = serCellChars c ++ [] from by
        simp [charJoin]]
      rw [papaLoop_serCell c [] row acc (Or.inl rfl)]
      rfl
    | cons c2 t =>
      rw [show charJoin [','] ((c :: c2 :: t).map serCellChars) =
          serCellChars c ++ (',' :: charJoin [','] ((c2 :: t).map serCellChars))
        from by simp [charJoin]]
      rw [papaLoop_serCell c
        (',' :: charJoin [','] ((c2 :: t).map serCellChars))
        row acc (Or.inr (Or.inl rfl))]
      rw [papaLoop, if_neg (by simp), if_pos rfl]
      rw [ih (row ++ [c]) acc (by simp)]
      simp

/-- Scanning the newline-joined serialization of non-empty rows appends
exactly those rows to the finished records. -/
lemma papaLoop_rows :
    ∀ (rows : List (List (List Char))) (acc : List (List (List Char))),
      rows ≠ [] → (∀ r ∈ rows, r ≠ []) →
      papaLoop .unq (charJoin ['\n']
          (rows.map (fun r => charJoin [','] (r.map serCellChars)))) [] [] acc =
        acc ++ rows := by
  intro rows
  induction rows with
  | nil => intro acc h; exact absurd rfl h
  | cons r rs ih =>
    intro acc _ hne
    cases rs with
    | nil =>
      rw [show charJoin ['\n'] ([r].map (fun r => charJoin [','] (r.map serCellChars)))
          = charJoin [','] (r.map serCellChars) from rfl]
      rw [papaLoop_row_end r [] acc (hne r (by simp))]
      simp
    | cons r2 t =>
      rw [show charJoin ['\n'] ((r :: r2 :: t).map
            (fun r => charJoin [','] (r.map serCellChars))) =
          charJoin [','] (r.map serCellChars) ++
            ('\n' :: charJoin ['\n'] ((r2 :: t).map
              (fun r => charJoin [','] (r.map serCellChars))))
        from by simp [charJoin]]
      rw [papaLoop_row_newline r _ [] acc (hne r (by simp))]
      rw [ih (acc ++ [[] ++ r]) (by simp) (fun x hx => hne x (by simp [hx]))]
      simp

lemma dropWhile_eq_self_of_none {p : Char → Bool} {l : List Char}
    (h : ∀ c ∈ l, ¬ p c = true) : l.dropWhile p = l := by
  cases l with
  | nil => rfl
  | cons c t =>
    rw [List.dropWhile_cons, if_neg (h c (by simp))]

lemma jsTrim_eq_self {s : String} (h : ∀ c ∈ s.data, ¬ c.isWhitespace = true) :
    jsTrim s = s := by
  unfold jsTrim
  rw [dropWhile_eq_self_of_none h,
    dropWhile_eq_self_of_none (fun c hc => h c (List.mem_reverse.1 hc)),
    List.reverse_reverse, mk_data]

lemma normChar_not_ws {c : Char} (hn : normChar c) : ¬ c.isWhitespace = true := by
  intro hws
  simp only [Char.isWhitespace, Bool.or_eq_true, decide_eq_true_eq] at hws
  rcases hws with ((rfl | rfl) | rfl) | rfl <;> revert hn <;> decide

lemma normChar_lower {c : Char} (hn : normChar c) : jsToLowerChar c = c := by
  unfold jsToLowerChar
  rcases hn with ⟨h1, _⟩ | ⟨_, h2⟩ | rfl
  · exact if_neg (fun h => absurd (le_trans h1 h.2) (by decide))
  · exact if_neg (fun h => absurd (le_trans h.1 h2) (by decide))
  · exact if_neg (by decide)

lemma normChar_repl {c : Char} (hn : normChar c) :
    (if ('a' ≤ c && c ≤ 'z') || ('0' ≤ c && c ≤ '9') then c else '_') = c := by
  rcases hn with ⟨h1, h2⟩ | ⟨h1, h2⟩ | rfl
  · rw [if_pos (by simp [h1, h2])]
  · rw [if_pos (by simp [h1, h2])]
  · rw [if_neg (by decide)]

lemma normChar_not_special {c : Char} (hn : normChar c) :
    (c == ',' || c == '"' || c == '\n') = false := by
  simp only [Bool.or_eq_false_iff, beq_eq_false_iff_ne, ne_eq]
  refine ⟨⟨?_, ?_⟩, ?_⟩ <;> rintro rfl <;> revert hn <;> decide

lemma serCell_norm {s : List Char} (h : ∀ c ∈ s, normChar c) :
    serCellChars s = s := by
  unfold serCellChars
  rw [if_neg]
  simp only [List.any_eq_true, not_exists, not_and]
  intro c hc
  simp [normChar_not_special (h c hc)]

lemma normalizeHeader_fixed {h : String} (hc : ∀ c ∈ h.data, normChar c) :
    normalizeHeader h = h := by
  unfold normalizeHeader
  rw [jsTrim_eq_self (fun c hc2 => normChar_not_ws (hc c hc2))]
  have h1 : (toLowerStr h).data = h.data := by
    show h.data.map jsToLowerChar = h.data
    rw [List.map_congr_left (fun c hc2 => normChar_lower (hc c hc2))]
    exact List.map_id _
  rw [h1]
  rw [List.map_congr_left (fun c hc2 => normChar_repl (hc c hc2))]
  have h2 : h.data.map (fun c => c) = h.data := List.map_id _
  rw [h2]

/-- C5 (counterexample): a single-column file whose only row holds the
empty string serializes to a line the upload parser drops
(skipEmptyLines), so the row is lost and re-parsing does not reproduce
the grid. -/
theorem claim_C5_counterexample :
    parseUploadCSV (generateCleanedCSV
        ⟨"f1", "tasks.csv", "tasks", ["id"], [[Cell.str ""]]⟩) =
      some (["id"], []) ∧
    parseUploadCSV (generateCleanedCSV
        ⟨"f1", "tasks.csv", "tasks", ["id"], [[Cell.str ""]]⟩) ≠
      some ((⟨"f1", "tasks.csv", "tasks", ["id"], [[Cell.str ""]]⟩ : DataFile).headers,
        (⟨"f1", "tasks.csv", "tasks", ["id"], [[Cell.str ""]]⟩ : DataFile).data.map
          (fun row => row.map cellOrEmpty)) := by
  exact ⟨by decide, by decide⟩

/-- C5 (amended): for every DataFile whose headers are non-degenerate and
already in upload-normalized form (non-empty header list, not a single
empty header, characters in [a-z0-9_]) and whose every row is non-empty
and does not consist of a single cell with empty string value (such rows
serialize to an empty line that skipEmptyLines drops), serializing with
the cleaned-CSV generator and re-parsing with the upload CSV parser
reproduces the same headers and the same cell values as strings. -/
theorem claim_C5_amended :
    ∀ (file : DataFile),
      file.headers ≠ [] → file.headers ≠ [""] →
      (∀ h ∈ file.headers, ∀ c ∈ h.data, normChar c) →
      (∀ row ∈ file.data, row ≠ [] ∧ row.map cellOrEmpty ≠ [""]) →
      parseUploadCSV (generateCleanedCSV file) =
        some (file.headers, file.data.map (fun row => row.map cellOrEmpty)) := by
  intro file hne hne1 hnorm hrows
  have hH : (file.headers.map String.data).map serCellChars = file.headers.map String.data := by
    rw [List.map_map]
    refine List.map_congr_left ?_
    intro h hh
    show serCellChars h.data = h.data
    exact serCell_norm (hnorm h hh)
  have htext : (generateCleanedCSV file).data =
      charJoin ['\n'] (((file.headers.map String.data) ::
        file.data.map (fun row => row.map (fun cell => (cellOrEmpty cell).data))).map
        (fun r => charJoin [','] (r.map serCellChars))) := by
    unfold generateCleanedCSV
    dsimp only
    rw [jsJoin_data]
    show charJoin ['\n'] _ = _
    congr 1
    rw [List.map_cons, List.map_cons]
    congr 1
    · rw [jsJoin_data, hH]
    · rw [List.map_map, List.map_map]
      refine List.map_congr_left ?_
      intro row hrow
      show (jsJoin "," (row.map csvCellString)).data =
        charJoin [','] ((row.map (fun cell => (cellOrEmpty cell).data)).map serCellChars)
      rw [jsJoin_data, List.map_map, List.map_map]
      congr 1
      refine List.map_congr_left ?_
      intro cell _
      exact csvCellString_data cell
  have hscan := papaLoop_rows ((file.headers.map String.data) ::
      file.data.map (fun row => row.map (fun cell => (cellOrEmpty cell).data))) []
    (by simp)
    (by
      intro r hr
      rcases List.mem_cons.1 hr with rfl | hr
      · simpa using hne
      · rcases List.mem_map.1 hr with ⟨row, hrow, rfl⟩
        simpa using (hrows row hrow).1)
  have hfilter : ∀ r ∈ ((file.headers.map String.data) ::
      file.data.map (fun row => row.map (fun cell => (cellOrEmpty cell).data))),
      (r != [[]]) = true := by
    intro r hr
    simp only [bne_iff_ne, ne_eq]
    rcases List.mem_cons.1 hr with rfl | hr
    · intro heq
      apply hne1
      have hlen := congrArg List.length heq
      simp only [List.length_map, List.length_cons, List.length_nil] at hlen
      cases hhd : file.headers with
      | nil => rw [hhd] at hlen; simp at hlen
      | cons h0 t =>
        rw [hhd] at hlen
        simp only [List.length_cons] at hlen
        have ht : t = [] := by
          cases t with
          | nil => rfl
          | cons _ _ => simp at hlen
        subst ht
        rw [hhd] at heq
        simp only [List.map_cons, List.map_nil, List.cons.injEq, and_true] at heq
        have : h0 = "" := String.ext (by rw [heq])
        rw [this]
    · rcases List.mem_map.1 hr with ⟨row, hrow, rfl⟩
      intro heq
      apply (hrows row hrow).2
      have hlen := congrArg List.length heq
      simp only [List.length_map, List.length_cons, List.length_nil] at hlen
      cases hrd : row with
      | nil => rw [hrd] at hlen; simp at hlen
      | cons c0 t =>
        rw [hrd] at hlen
        simp only [List.length_cons] at hlen
        have ht : t = [] := by
          cases t with
          | nil => rfl
          | cons _ _ => simp at hlen
        subst ht
        rw [hrd] at heq
        simp only [List.map_cons, List.map_nil, List.cons.injEq, and_true] at heq
        simp only [List.map_cons, List.map_nil]
        have : cellOrEmpty c0 = "" := String.ext (by rw [heq])
        rw [this]
  unfold parseUploadCSV papaParse
  rw [htext, hscan, List.nil_append, List.filter_eq_self.2 hfilter]
  have hform : ((file.headers.map String.data) ::
      file.data.map (fun row => row.map (fun cell => (cellOrEmpty cell).data))).map
        (fun r => r.map (fun f => (⟨f⟩ : String))) =
      file.headers :: file.data.map (fun row => row.map cellOrEmpty) := by
    rw [List.map_cons]
    congr 1
    · rw [List.map_map]
      exact (List.map_congr_left (fun h _ => mk_data h)).trans (List.map_id _)
    · rw [List.map_map]
      refine List.map_congr_left ?_
      intro row _
      show (row.map (fun cell => (cellOrEmpty cell).data)).map (fun f => (⟨f⟩ : String)) =
        row.map cellOrEmpty
      rw [List.map_map]
      exact List.map_congr_left (fun cell _ => mk_data (cellOrEmpty cell))
  rw [hform]
  show some (file.headers.map normalizeHeader,
      file.data.map (fun row => row.map cellOrEmpty)) =
    some (file.headers, file.data.map (fun row => row.map cellOrEmpty))
  have hnorm2 : file.headers.map normalizeHeader = file.headers := by
    rw [List.map_congr_left (fun h hh => normalizeHeader_fixed (hnorm h hh))]
    exact List.map_id _
  rw [hnorm2]

/-- Witness for C5 at a concrete file exercising comma, quote, and
newline escaping: the round trip reproduces headers and cell strings. -/
theorem claim_C5_witness :
    parseUploadCSV (generateCleanedCSV
        ⟨"f1", "tasks.csv", "tasks", ["id", "notes"],
          [[Cell.str "a,b", Cell.str "x\"y\nz"], [Cell.num 7, Cell.str ""]]⟩) =
      some (["id", "notes"], [["a,b", "x\"y\nz"], ["7", ""]]) := by
  have h := claim_C5_amended
    ⟨"f1", "tasks.csv", "tasks", ["id", "notes"],
      [[Cell.str "a,b", Cell.str "x\"y\nz"], [Cell.num 7, Cell.str ""]]⟩
    (by decide) (by decide) (by decide) (by decide)
  rw [h]
  rfl

end DataAlchemist
